import Mathlib

/-!
Verification development for the AiON repository: a shallow embedding of the
streaming-subscriber URL construction, the feed read path, the retrying API
client and the per-story chat state from the web frontend, together with
spec-modelled embeddings of the backend pipeline components (circuit breaker,
provider router, clustering engine, trending scorer, cache single-flight and
AI failover chain) that the repository snapshot does not include under src.
-/

/- ───────────────────────── Streaming URL (src/apps/web/lib/api.ts, useSSE.ts) ───────────────────────── -/

/-- Base API URL, `process.env.NEXT_PUBLIC_API_URL || "http://localhost:8000"`. -/
def API_URL : String := "http://localhost:8000"

/-- Query parameters built by `getStreamURL` in src/apps/web/lib/api.ts:
`new URLSearchParams({ category, mode })` followed by
`if (country) params.set("country", country)`. -/
def streamParams (country category mode : String) : List (String × String) :=
  [("category", category), ("mode", mode)] ++
    (if country = "" then [] else [("country", country)])

/-- Serialization of URLSearchParams as `k=v` pairs joined by `&`
(percent-encoding elided; the inputs used here need none). -/
def encodeParams (ps : List (String × String)) : String :=
  String.intercalate "&" (ps.map (fun p => p.1 ++ "=" ++ p.2))

/-- `getStreamURL` from src/apps/web/lib/api.ts lines 138-146. The `connect`
callback in src/apps/web/hooks/useSSE.ts builds the EventSource URL for the
initial connection and for every automatic reconnection after an error by
calling exactly `getStreamURL(country, category, mode)`: no further argument
is passed on reconnection. -/
def getStreamURL (country category mode : String) : String :=
  API_URL ++ "/api/stream?" ++ encodeParams (streamParams country category mode)

/- ───────────────────────── Feed read path (src/apps/web/app/page.tsx) ───────────────────────── -/

/-- The slice of `HomeInner` React state that `loadFeed` touches: the feed
items (payloads abstracted as numbers), the error banner text and the loading
flag. -/
structure FeedState where
  items : List Nat
  error : Option String
  loading : Bool
deriving DecidableEq

/-- Outcome of the `getFeed` call inside `loadFeed`: either a payload or a
thrown error. -/
inductive FetchResult
  | ok (items : List Nat)
  | failed
deriving DecidableEq

/-- Error message set by `loadFeed` on a non-silent failure. -/
def feedErrorMsg : String := "Unable to connect to AiON API"

/-- `loadFeed` from src/apps/web/app/page.tsx lines 151-172 as a state
transition. Non-silent: set loading, clear error, await `getFeed`; on success
store items and clear error, on failure set the error message; finally clear
loading. Silent: only the try/catch body runs, so a failure leaves both the
items and the error untouched. -/
def loadFeed (s : FeedState) (r : FetchResult) (silent : Bool) : FeedState :=
  match r with
  | .ok data => { items := data, error := none, loading := if silent then s.loading else false }
  | .failed =>
      { items := s.items,
        error := if silent then s.error else some feedErrorMsg,
        loading := if silent then s.loading else false }

/-- The error banner of `HomeInner` (src/apps/web/app/page.tsx lines 346-353):
rendered only when `error` is set; its text is the error followed by
`" — Showing cached data"` exactly when the item list is non-empty. -/
def bannerText (s : FeedState) : Option String :=
  s.error.map (fun e => e ++ if s.items.length > 0 then " — Showing cached data" else "")

/- ───────────────────────── Retrying API client (src/apps/web/lib/api.ts) ───────────────────────── -/

/-- One attempt of the `fetch` call inside `fetchJSON`: either an HTTP
response with its ok flag, status and parsed body (bodies abstracted as
numbers), or a thrown error (network failure, timeout). -/
inductive HttpAttempt
  | resp (ok : Bool) (status : Nat) (body : Nat)
  | thrown (err : Nat)
deriving DecidableEq

/-- The try-block of `fetchJSON`: a non-ok response raises
`Error("API error: ...")` (carrying the status) and a thrown error is caught
as-is, so both count as failures; an ok response yields its parsed body. -/
def attemptOutcome : HttpAttempt → Except Nat Nat
  | .resp true _ body => .ok body
  | .resp false status _ => .error status
  | .thrown e => .error e

/-- Observable trace of one `fetchJSON` invocation: the returned body or the
error finally thrown, the number of fetch attempts performed, and the list of
backoff delays (milliseconds) awaited between attempts, in order. -/
structure FetchTrace where
  result : Except Nat Nat
  attempts : Nat
  delaysMs : List Nat

/-- The retry loop of `fetchJSON` (src/apps/web/lib/api.ts lines 26-46):
`for (attempt = 0; attempt <= retries; attempt++)`; on failure with
`attempt < retries` it awaits `1000 * (attempt + 1)` ms, and after the last
attempt it rethrows the last error. `remaining` counts the attempts still
permitted after the current one. -/
def fetchGo (outcomes : Nat → HttpAttempt) (attempt : Nat) : Nat → FetchTrace
  | 0 =>
      match attemptOutcome (outcomes attempt) with
      | .ok b => ⟨.ok b, attempt + 1, []⟩
      | .error e => ⟨.error e, attempt + 1, []⟩
  | remaining + 1 =>
      match attemptOutcome (outcomes attempt) with
      | .ok b => ⟨.ok b, attempt + 1, []⟩
      | .error _ =>
          let t := fetchGo outcomes (attempt + 1) remaining
          ⟨t.result, t.attempts, 1000 * (attempt + 1) :: t.delaysMs⟩

/-- `fetchJSON` run with a given retry budget, starting at attempt 0. -/
def fetchJSON (outcomes : Nat → HttpAttempt) (retries : Nat) : FetchTrace :=
  fetchGo outcomes 0 retries

/-- An outcome environment determined by the first three attempts, the only
ones reachable under the default `retries = 2`. -/
def outcomes3 (o0 o1 o2 : HttpAttempt) : Nat → HttpAttempt :=
  fun i => if i = 0 then o0 else if i = 1 then o1 else o2

/- ───────────────────────── Per-story chat (ChatSection, src/unnamed/part_006) ───────────────────────── -/

/-- Role of a chat message. -/
inductive ChatRole
  | user
  | assistant
deriving DecidableEq

/-- A chat message as kept in the `messages` React state of `ChatSection`. -/
structure ChatMsg where
  role : ChatRole
  content : String
deriving DecidableEq

/-- Apology message appended by the catch-branch of `ChatSection.send`. -/
def chatApology : String := "Sorry, I couldn\x27t process that question. Please try again."

/-- JavaScript `String.prototype.trim`: whitespace stripped from both ends,
written structurally over the character list so it evaluates by reduction. -/
def trimStr (s : String) : String :=
  ⟨((s.data.dropWhile Char.isWhitespace).reverse.dropWhile Char.isWhitespace).reverse⟩

/-- `ChatSection.send` from src/unnamed/part_006 lines 49-82 as a transition
on the `messages` state. An all-whitespace question returns early. Otherwise
the trimmed user message is appended; on a successful response (`resp = some
ans`) the assistant answer is appended and, when the list exceeds 20 entries,
only the final 20 are kept (`all.slice(-20)`); on a failed send the apology
assistant message is appended with no truncation. -/
def sendChat (messages : List ChatMsg) (question : String) (resp : Option String) :
    List ChatMsg :=
  if trimStr question = "" then messages
  else
    let updated := messages ++ [ChatMsg.mk ChatRole.user (trimStr question)]
    match resp with
    | some ans =>
        let all := updated ++ [ChatMsg.mk ChatRole.assistant ans]
        if all.length > 20 then all.drop (all.length - 20) else all
    | none => updated ++ [ChatMsg.mk ChatRole.assistant chatApology]

/-- The chat state after `n` successful sends starting from the empty
conversation. -/
def chatAfterSends : Nat → List ChatMsg
  | 0 => []
  | n + 1 => sendChat (chatAfterSends n) "q" (some "a")

/- ───────────────────────── Circuit breaker (spec §4.1; backend not under src) ───────────────────────── -/

/-- Modelled from the spec: the tri-state gate of the per-(provider, purpose)
Circuit Breaker; the backend implementing it is not part of the repository
snapshot under src. -/
inductive BreakerState
  | Closed
  | Open
  | HalfOpen
deriving DecidableEq

/-- Modelled from the spec: the per-provider, per-purpose Circuit State —
state, consecutive-failure counter and open-since timestamp (seconds). -/
structure CircuitState where
  state : BreakerState
  failures : Nat
  openSince : Nat
deriving DecidableEq

/-- Failure threshold: 3 consecutive failures open the breaker. -/
def failureThreshold : Nat := 3

/-- Cooldown before an open breaker admits a trial call: 60 seconds. -/
def cooldownSecs : Nat := 60

/-- Modelled from the spec: `record(success)` updates the Circuit State.
Closed: a success resets the consecutive-failure counter; the failure that
reaches the threshold opens the breaker with open-since = now. Half-open: a
trial success closes the breaker with counters reset; a trial failure
re-opens it with open-since reset to now. Open: calls are rejected before
being made, so no outcome is recorded. -/
def recordOutcome (s : CircuitState) (success : Bool) (now : Nat) : CircuitState :=
  match s.state, success with
  | .Closed, true => { s with failures := 0 }
  | .Closed, false =>
      if failureThreshold ≤ s.failures + 1 then ⟨.Open, s.failures + 1, now⟩
      else { s with failures := s.failures + 1 }
  | .HalfOpen, true => ⟨.Closed, 0, s.openSince⟩
  | .HalfOpen, false => ⟨.Open, s.failures + 1, now⟩
  | .Open, _ => s

/-- Modelled from the spec: `allow()` decides whether a call may be
attempted, transitioning Open → Half-open once the cooldown has elapsed.
Granting that transition hands out the single trial call, so a further
`allow()` in Half-open (the trial still outstanding) returns false. -/
def allow (s : CircuitState) (now : Nat) : Bool × CircuitState :=
  match s.state with
  | .Closed => (true, s)
  | .Open =>
      if cooldownSecs ≤ now - s.openSince then (true, ⟨.HalfOpen, s.failures, s.openSince⟩)
      else (false, s)
  | .HalfOpen => (false, s)

/-- The Circuit State reached from `s` by recording three consecutive
failures at times t1, t2, t3. -/
def afterThreeFailures (s : CircuitState) (t1 t2 t3 : Nat) : CircuitState :=
  recordOutcome (recordOutcome (recordOutcome s false t1) false t2) false t3

/- ───────────────────────── Cache single-flight (spec §4.5, §9; backend not under src) ───────────────────────── -/

/-- Modelled from the spec: the keyed single-flight registry of the Cache
Layer — per fingerprint (keys abstracted as numbers), the in-flight refresh
marker and the number of loader invocations currently in flight. -/
structure FlightRegistry where
  marker : Nat → Bool
  flights : Nat → Nat

/-- Modelled from the spec: the events visible at one fingerprint of the
Cache Layer. `staleRead fp`: a caller observes a stale or missing entry and
attempts a refresh. `complete fp`: the in-flight refresh for fp finishes
(success or failure) and its registry entry is removed. -/
inductive CacheEvent
  | staleRead (fp : Nat)
  | complete (fp : Nat)

/-- Modelled from the spec: a caller that observes the in-flight marker never
starts a second refresh (it awaits the pending result or takes the stale
payload); a caller that finds the marker clear installs it and invokes the
loader; completion clears the marker. -/
def stepRegistry (s : FlightRegistry) (e : CacheEvent) : FlightRegistry :=
  match e with
  | .staleRead fp =>
      if s.marker fp then s
      else ⟨fun k => if k = fp then true else s.marker k,
            fun k => if k = fp then s.flights k + 1 else s.flights k⟩
  | .complete fp =>
      if s.marker fp then
        ⟨fun k => if k = fp then false else s.marker k,
         fun k => if k = fp then s.flights k - 1 else s.flights k⟩
      else s

/-- The registry before any event: no markers, no loader in flight. -/
def initRegistry : FlightRegistry := ⟨fun _ => false, fun _ => 0⟩

/-- The registry invariant tying the in-flight marker to the number of
loader invocations in flight. -/
def RegistryInv (s : FlightRegistry) : Prop :=
  ∀ fp, s.flights fp = if s.marker fp then 1 else 0

theorem stepRegistry_inv {s : FlightRegistry} (e : CacheEvent) (h : RegistryInv s) :
    RegistryInv (stepRegistry s e) := by
  cases e with
  | staleRead fp =>
      intro k
      by_cases hm : s.marker fp
      · simpa [stepRegistry, hm] using h k
      · have hfp : s.flights fp = 0 := by simpa [hm] using h fp
        by_cases hk : k = fp
        · subst hk
          simp [stepRegistry, hm, hfp]
        · simpa [stepRegistry, hm, hk] using h k
  | complete fp =>
      intro k
      by_cases hm : s.marker fp
      · have hfp : s.flights fp = 1 := by simpa [hm] using h fp
        by_cases hk : k = fp
        · subst hk
          simp [stepRegistry, hm, hfp]
        · simpa [stepRegistry, hm, hk] using h k
      · simpa [stepRegistry, hm] using h k

theorem foldRegistry_inv (evts : List CacheEvent) :
    ∀ s : FlightRegistry, RegistryInv s → RegistryInv (evts.foldl stepRegistry s) := by
  induction evts with
  | nil => exact fun s h => h
  | cons e rest ih => exact fun s h => ih (stepRegistry s e) (stepRegistry_inv e h)

/- ───────────────────────── Theorems: C1 ───────────────────────── -/

/-- Claim C1, counterexample: at the concrete subscription (country "US",
category "general", mode "trending") the URL built by `getStreamURL` — used
unchanged for every automatic reconnection by `useSSE.connect` — carries
exactly the keys category, mode and country; in particular no
last-seen-position parameter of any name is present. -/
theorem stream_url_has_no_position_param :
    (streamParams "US" "general" "trending").map Prod.fst = ["category", "mode", "country"] ∧
    "position" ∉ (streamParams "US" "general" "trending").map Prod.fst ∧
    "last_seen_position" ∉ (streamParams "US" "general" "trending").map Prod.fst := by
  decide

/-- Claim C1 (amended): the URL built for every (re)connection carries exactly
the parameters category, mode, and country when the country filter is
non-empty — and no last-seen-position parameter; the subscriber never presents
the position of the last event it processed. -/
theorem stream_url_params_c1 (country category mode : String) :
    (country ≠ "" →
      (streamParams country category mode).map Prod.fst = ["category", "mode", "country"]) ∧
    (country = "" →
      (streamParams country category mode).map Prod.fst = ["category", "mode"]) ∧
    getStreamURL country category mode =
      API_URL ++ "/api/stream?" ++ encodeParams (streamParams country category mode) := by
  refine ⟨fun h => ?_, fun h => ?_, rfl⟩ <;> simp [streamParams, h]

/-- Claim C1 (amended), witness at concrete inputs. -/
theorem stream_url_params_c1_witness :
    (streamParams "NP" "world" "latest").map Prod.fst = ["category", "mode", "country"] ∧
    (streamParams "" "world" "latest").map Prod.fst = ["category", "mode"] := by
  exact ⟨(stream_url_params_c1 "NP" "world" "latest").1 (by decide),
         (stream_url_params_c1 "" "world" "latest").2.1 rfl⟩

/- ───────────────────────── Theorems: C2 ───────────────────────── -/

/-- Claim C2: when the `getFeed` call of a (non-silent) read fails while a
previously loaded payload exists, `loadFeed` keeps serving that stale payload
and the banner surfaces the degraded indicator with the "Showing cached data"
suffix; when no payload exists at all, the failure surfaces as an error state
with an empty payload; and a silent background refresh failure also retains
the stale payload. -/
theorem stale_feed_served_c2 (s : FeedState) :
    (s.items ≠ [] →
      (loadFeed s .failed false).items = s.items ∧
      bannerText (loadFeed s .failed false) =
        some (feedErrorMsg ++ " — Showing cached data")) ∧
    (s.items = [] →
      (loadFeed s .failed false).items = [] ∧
      (loadFeed s .failed false).error = some feedErrorMsg ∧
      bannerText (loadFeed s .failed false) = some feedErrorMsg) ∧
    (loadFeed s .failed true).items = s.items := by
  refine ⟨fun h => ?_, fun h => ?_, rfl⟩
  · have hlen : 0 < s.items.length := List.length_pos.mpr h
    simp [loadFeed, bannerText, hlen]
  · simp [loadFeed, bannerText, h]

/-- Claim C2, witness: a failing load over the stale payload `[7]` serves
`[7]` with the degraded banner, and a failing load with no payload yields the
bare error state. -/
theorem stale_feed_served_c2_witness :
    (loadFeed ⟨[7], none, false⟩ .failed false).items = [7] ∧
    bannerText (loadFeed ⟨[7], none, false⟩ .failed false) =
      some (feedErrorMsg ++ " — Showing cached data") ∧
    (loadFeed ⟨[], none, false⟩ .failed false).error = some feedErrorMsg := by
  refine ⟨?_, ?_, ?_⟩
  · exact ((stale_feed_served_c2 ⟨[7], none, false⟩).1 (by decide)).1
  · exact ((stale_feed_served_c2 ⟨[7], none, false⟩).1 (by decide)).2
  · exact ((stale_feed_served_c2 ⟨[], none, false⟩).2.1 rfl).2.1

/- ───────────────────────── Theorems: C9 ───────────────────────── -/

/-- Claim C9: with the default `retries = 2`, `fetchJSON` performs at most 3
attempts; a non-ok status and a thrown error both count as failures; it
returns the body of the first successful attempt, waits 1000 ms before the
second attempt and 2000 ms before the third, and throws the last attempt's
error only after all three attempts failed. -/
theorem fetch_json_retries_c9 (o0 o1 o2 : HttpAttempt) :
    (fetchJSON (outcomes3 o0 o1 o2) 2).attempts ≤ 3 ∧
    (∀ s b, attemptOutcome (.resp false s b) = .error s) ∧
    (∀ e, attemptOutcome (.thrown e) = .error e) ∧
    (∀ b, attemptOutcome o0 = .ok b →
      fetchJSON (outcomes3 o0 o1 o2) 2 = ⟨.ok b, 1, []⟩) ∧
    (∀ e0 b, attemptOutcome o0 = .error e0 → attemptOutcome o1 = .ok b →
      fetchJSON (outcomes3 o0 o1 o2) 2 = ⟨.ok b, 2, [1000]⟩) ∧
    (∀ e0 e1 b, attemptOutcome o0 = .error e0 → attemptOutcome o1 = .error e1 →
      attemptOutcome o2 = .ok b →
      fetchJSON (outcomes3 o0 o1 o2) 2 = ⟨.ok b, 3, [1000, 2000]⟩) ∧
    (∀ e0 e1 e2, attemptOutcome o0 = .error e0 → attemptOutcome o1 = .error e1 →
      attemptOutcome o2 = .error e2 →
      fetchJSON (outcomes3 o0 o1 o2) 2 = ⟨.error e2, 3, [1000, 2000]⟩) := by
  refine ⟨?_, fun s b => rfl, fun e => rfl, fun b h0 => ?_, fun e0 b h0 h1 => ?_,
    fun e0 e1 b h0 h1 h2 => ?_, fun e0 e1 e2 h0 h1 h2 => ?_⟩
  · rcases h0 : attemptOutcome o0 with b0 | e0 <;>
      rcases h1 : attemptOutcome o1 with b1 | e1 <;>
      rcases h2 : attemptOutcome o2 with b2 | e2 <;>
      simp [fetchJSON, fetchGo, outcomes3, h0, h1, h2]
  · simp [fetchJSON, fetchGo, outcomes3, h0]
  · simp [fetchJSON, fetchGo, outcomes3, h0, h1]
  · simp [fetchJSON, fetchGo, outcomes3, h0, h1, h2]
  · simp [fetchJSON, fetchGo, outcomes3, h0, h1, h2]

/-- Claim C9, witness: a thrown error, then a 500 response, then a 200
response with body 42 yields body 42 after 3 attempts with delays 1000 ms and
2000 ms. -/
theorem fetch_json_retries_c9_witness :
    fetchJSON (outcomes3 (.thrown 7) (.resp false 500 0) (.resp true 200 42)) 2 =
      ⟨.ok 42, 3, [1000, 2000]⟩ := by
  exact (fetch_json_retries_c9 (.thrown 7) (.resp false 500 0)
    (.resp true 200 42)).2.2.2.2.2.1 7 500 42 rfl rfl rfl

/- ───────────────────────── Theorems: C10 ───────────────────────── -/

/-- Claim C10, counterexample: the 20-message cap is applied only on the
success path of `ChatSection.send`. Ten successful sends from the empty
conversation reach exactly 20 messages, and one further failed send then
leaves 22 messages — the conversation does hold more than 20 messages. -/
theorem chat_exceeds_twenty_on_failure :
    (chatAfterSends 10).length = 20 ∧
    (sendChat (chatAfterSends 10) "q" none).length = 22 := by
  decide

/-- Claim C10 (amended): after every completed successful send the
conversation keeps only the most recent 20 messages (oldest dropped), but
after a failed send the trimmed user message is retained and the apology
assistant message is appended with no cap applied, so the conversation can
grow to 22 messages; no error is surfaced. -/
theorem chat_cap_c10 (m : List ChatMsg) (q ans : String) (h : trimStr q ≠ "") :
    (sendChat m q (some ans) =
      List.drop (m.length + 2 - 20)
        (m ++ [ChatMsg.mk ChatRole.user (trimStr q), ChatMsg.mk ChatRole.assistant ans])) ∧
    (sendChat m q (some ans)).length = min (m.length + 2) 20 ∧
    sendChat m q none =
      m ++ [ChatMsg.mk ChatRole.user (trimStr q), ChatMsg.mk ChatRole.assistant chatApology] ∧
    (sendChat m q none).length = m.length + 2 := by
  have key : ∀ l : List ChatMsg,
      (if l.length > 20 then l.drop (l.length - 20) else l) = l.drop (l.length - 20) := by
    intro l
    by_cases hl : l.length > 20
    · simp [hl]
    · have hz : l.length - 20 = 0 := by omega
      simp [hl, hz]
  have hsucc : sendChat m q (some ans) =
      ((m ++ [ChatMsg.mk ChatRole.user (trimStr q)]) ++ [ChatMsg.mk ChatRole.assistant ans]).drop
        (((m ++ [ChatMsg.mk ChatRole.user (trimStr q)]) ++
          [ChatMsg.mk ChatRole.assistant ans]).length - 20) := by
    rw [← key]
    simp only [sendChat, if_neg h]
  have hfail : sendChat m q none =
      m ++ [ChatMsg.mk ChatRole.user (trimStr q), ChatMsg.mk ChatRole.assistant chatApology] := by
    simp only [sendChat, if_neg h]
    simp [List.append_assoc]
  refine ⟨?_, ?_, hfail, ?_⟩
  · rw [hsucc]
    simp [List.append_assoc]
  · rw [hsucc]
    simp only [List.length_drop, List.length_append, List.length_cons, List.length_nil]
    omega
  · rw [hfail]
    simp

/-- Claim C10 (amended), witness: a successful send from the empty
conversation yields the two new messages, and a failed send retains the user
message and appends the apology. -/
theorem chat_cap_c10_witness :
    sendChat [] "hi" (some "yo") =
      List.drop (0 + 2 - 20)
        ([] ++ [ChatMsg.mk ChatRole.user (trimStr "hi"), ChatMsg.mk ChatRole.assistant "yo"]) ∧
    sendChat [] "hi" none =
      [] ++ [ChatMsg.mk ChatRole.user (trimStr "hi"), ChatMsg.mk ChatRole.assistant chatApology] := by
  have h := chat_cap_c10 [] "hi" "yo" (by decide)
  exact ⟨h.1, h.2.2.1⟩

/- ───────────────────────── Theorems: C3 ───────────────────────── -/

/-- Claim C3: from any Closed breaker with a clean failure counter, three
consecutive recorded failures open the breaker with open-since the time of
the third failure; `allow` then returns false (leaving the state unchanged)
at every instant before 60 seconds have elapsed; once 60 seconds have
elapsed exactly one trial call is granted, moving the breaker to Half-open
where a further `allow` returns false; recording a trial success returns the
breaker to Closed with the counter reset, and recording a trial failure
re-opens it with open-since reset to the time of that failure. -/
theorem circuit_breaker_c3 (s : CircuitState) (t1 t2 t3 now now2 : Nat)
    (hst : s.state = .Closed) (hf : s.failures = 0) :
    (afterThreeFailures s t1 t2 t3).state = .Open ∧
    (afterThreeFailures s t1 t2 t3).openSince = t3 ∧
    (now < t3 + cooldownSecs →
      allow (afterThreeFailures s t1 t2 t3) now = (false, afterThreeFailures s t1 t2 t3)) ∧
    (t3 + cooldownSecs ≤ now →
      allow (afterThreeFailures s t1 t2 t3) now = (true, ⟨.HalfOpen, 3, t3⟩) ∧
      allow ⟨.HalfOpen, 3, t3⟩ now2 = (false, ⟨.HalfOpen, 3, t3⟩) ∧
      recordOutcome ⟨.HalfOpen, 3, t3⟩ true now2 = ⟨.Closed, 0, t3⟩ ∧
      recordOutcome ⟨.HalfOpen, 3, t3⟩ false now2 = ⟨.Open, 4, now2⟩) := by
  obtain ⟨st, f, os⟩ := s
  simp only at hst hf
  subst hst hf
  have h3 : afterThreeFailures ⟨.Closed, 0, os⟩ t1 t2 t3 = ⟨.Open, 3, t3⟩ := by
    simp [afterThreeFailures, recordOutcome, failureThreshold]
  refine ⟨by rw [h3], by rw [h3], fun hlt => ?_, fun hge => ?_⟩
  · rw [h3]
    have : ¬ cooldownSecs ≤ now - t3 := by
      simp only [cooldownSecs] at hlt ⊢
      omega
    simp [allow, this]
  · rw [h3]
    have : cooldownSecs ≤ now - t3 := by
      simp only [cooldownSecs] at hge ⊢
      omega
    refine ⟨by simp [allow, this], by simp [allow], ?_, ?_⟩ <;>
      simp [recordOutcome]

/-- Claim C3, witness: starting Closed at failures 0, three failures at times
1, 2, 3 open the breaker; `allow` at time 30 rejects, at time 63 grants the
single trial; a repeated `allow` in Half-open rejects; a trial success closes
the breaker and a trial failure re-opens it. -/
theorem circuit_breaker_c3_witness :
    (afterThreeFailures ⟨.Closed, 0, 0⟩ 1 2 3).state = .Open ∧
    allow (afterThreeFailures ⟨.Closed, 0, 0⟩ 1 2 3) 30 =
      (false, afterThreeFailures ⟨.Closed, 0, 0⟩ 1 2 3) ∧
    allow (afterThreeFailures ⟨.Closed, 0, 0⟩ 1 2 3) 63 = (true, ⟨.HalfOpen, 3, 3⟩) ∧
    allow ⟨.HalfOpen, 3, 3⟩ 64 = (false, ⟨.HalfOpen, 3, 3⟩) ∧
    recordOutcome ⟨.HalfOpen, 3, 3⟩ true 64 = ⟨.Closed, 0, 3⟩ ∧
    recordOutcome ⟨.HalfOpen, 3, 3⟩ false 64 = ⟨.Open, 4, 64⟩ := by
  have hlo := circuit_breaker_c3 ⟨.Closed, 0, 0⟩ 1 2 3 30 64 rfl rfl
  have hhi := circuit_breaker_c3 ⟨.Closed, 0, 0⟩ 1 2 3 63 64 rfl rfl
  refine ⟨hlo.1, hlo.2.2.1 (by decide), ?_, ?_, ?_, ?_⟩ <;>
    have hh := hhi.2.2.2 (by decide)
  · exact hh.1
  · exact hh.2.1
  · exact hh.2.2.1
  · exact hh.2.2.2

/- ───────────────────────── Theorems: C4 ───────────────────────── -/

/-- Claim C4: for every fingerprint and every interleaving of caller and
completion events, the registry reached from the initial state never has more
than one loader invocation in flight for that fingerprint, and a caller that
observes the in-flight marker leaves the registry untouched — it never starts
a second refresh. -/
theorem cache_single_flight_c4 (evts : List CacheEvent) (fp : Nat) (s : FlightRegistry)
    (h : s.marker fp = true) :
    (evts.foldl stepRegistry initRegistry).flights fp ≤ 1 ∧
    stepRegistry s (.staleRead fp) = s := by
  constructor
  · have hinv := foldRegistry_inv evts initRegistry (fun _ => rfl)
    rw [hinv fp]
    split <;> omega
  · simp [stepRegistry, h]

/-- Claim C4, witness: two concurrent stale reads on fingerprint 0 followed by
one completion never exceed one in-flight loader, and a stale read against a
set marker is a no-op. -/
theorem cache_single_flight_c4_witness :
    ([CacheEvent.staleRead 0, CacheEvent.staleRead 0,
        CacheEvent.complete 0].foldl stepRegistry initRegistry).flights 0 ≤ 1 ∧
    stepRegistry ⟨fun _ => true, fun _ => 1⟩ (.staleRead 0) = ⟨fun _ => true, fun _ => 1⟩ := by
  exact cache_single_flight_c4 [CacheEvent.staleRead 0, CacheEvent.staleRead 0,
    CacheEvent.complete 0] 0 ⟨fun _ => true, fun _ => 1⟩ rfl

/- ───────────────────────── Provider router (spec §4.2; backend not under src) ───────────────────────── -/

/-- Modelled from the spec: the explicit failure returned when every provider
in a purpose's chain was skipped or failed. -/
inductive RouteFailure
  | chainExhausted
deriving DecidableEq

/-- Modelled from the spec: one provider link of a configured chain, as the
router observes it — whether its Circuit Breaker allows the call, and the
call's normalized result (article ids), where `none` covers every failure
shape each provider maps onto the binary breaker signal (network error,
non-2xx, timeout, rate limit, auth failure, empty result, malformed
payload). -/
abbrev ProviderLink : Type := Bool × Option (List Nat)

/-- Modelled from the spec: walk the ordered chain; skip a provider whose
breaker disallows the call without penalty, return the first successful
normalized result set, and return the explicit chain-exhausted failure when
every provider was skipped or failed — never an empty success. -/
def routeChain : List ProviderLink → Except RouteFailure (List Nat)
  | [] => .error .chainExhausted
  | (true, some arts) :: _ => .ok arts
  | (true, none) :: rest => routeChain rest
  | (false, _) :: rest => routeChain rest

/- ───────────────────────── AI router (spec §4.6; backend not under src) ───────────────────────── -/

/-- Modelled from the spec: the three AI purposes, each with its own ordered
chain of backends ending in a deterministic fallback. -/
inductive AIPurpose
  | summarize
  | explain
  | embed
deriving DecidableEq

/-- Modelled from the spec: enrichment content — text for summarize/explain,
a fixed-dimension vector for embed. -/
inductive EnrichOut
  | text (s : String)
  | vec (v : List Nat)
deriving DecidableEq

/-- Period-splitting over a character list (the sentence boundaries of the
extractive fallback), written structurally so it evaluates by reduction. -/
def splitOnDot : List Char → List (List Char)
  | [] => [[]]
  | c :: rest =>
      match splitOnDot rest with
      | [] => [[c]]
      | h :: t => if c = '.' then [] :: h :: t else (c :: h) :: t

/-- Inverse of `splitOnDot` on its first segments: rejoin with periods. -/
def joinWithDot : List (List Char) → List Char
  | [] => []
  | [l] => l
  | l :: ls => l ++ '.' :: joinWithDot ls

/-- Sentence-prefix extractive summary: the first `n` period-separated
sentences of the source text. -/
def extractiveSummary (n : Nat) (text : String) : String :=
  ⟨joinWithDot ((splitOnDot text.data).take n)⟩

/-- Dimension of the hash-bucket pseudo-embedding. -/
def EMBED_DIM : Nat := 8

/-- Hash-bucket pseudo-embedding: each character increments the bucket
selected by its code point modulo the dimension. -/
def hashBucketEmbed (text : String) : List Nat :=
  text.data.foldl
    (fun acc ch => acc.set (ch.toNat % EMBED_DIM) (acc.getD (ch.toNat % EMBED_DIM) 0 + 1))
    (List.replicate EMBED_DIM 0)

/-- Modelled from the spec: the mandatory deterministic fallback at the end
of every chain — an extractive summary for summarize/explain, a hash-bucket
pseudo-embedding for embed. A total function: it never fails. -/
def purposeFallback : AIPurpose → String → EnrichOut
  | .summarize, t => .text (extractiveSummary 3 t)
  | .explain, t => .text (extractiveSummary 5 t)
  | .embed, t => .vec (hashBucketEmbed t)

/-- Result of one enrichment request: the content and whether it was produced
by an AI backend (`false` marks the deterministic fallback's non-AI
content). -/
structure EnrichResult where
  content : EnrichOut
  aiGenerated : Bool
deriving DecidableEq

/-- Modelled from the spec: walk the purpose's chain of AI backends (a
backend's observed outcome is `some` content or `none` on any failure); the
first success is returned marked AI-generated, and when the chain is
exhausted the deterministic fallback's content is returned marked
non-AI-generated. The return type is total: no hard failure exists. -/
def runAIChain (p : AIPurpose) (input : String) : List (Option EnrichOut) → EnrichResult
  | [] => ⟨purposeFallback p input, false⟩
  | some r :: _ => ⟨r, true⟩
  | none :: rest => runAIChain p input rest

/- ───────────────────────── Theorems: C5 ───────────────────────── -/

/-- Claim C5: when every provider in the chain was skipped (breaker open) or
failed, the router returns the explicit chain-exhausted failure and in
particular never a successful result (so never an empty success); and for a
chain whose prefix is all skipped-or-failed followed by a succeeding
provider, the router returns that first successful provider's normalized
result set. -/
theorem provider_router_c5 (chain pre rest : List ProviderLink) (r : List Nat)
    (hEx : ∀ p ∈ chain, p.1 = false ∨ p.2 = none)
    (hPre : ∀ p ∈ pre, p.1 = false ∨ p.2 = none) :
    routeChain chain = .error .chainExhausted ∧
    (∀ arts, routeChain chain ≠ .ok arts) ∧
    routeChain (pre ++ (true, some r) :: rest) = .ok r := by
  have step : ∀ (allows : Bool) (res : Option (List Nat)) (tl : List ProviderLink),
      allows = false ∨ res = none →
      routeChain ((allows, res) :: tl) = routeChain tl := by
    intro allows res tl h1
    rcases h1 with h1 | h1
    · subst h1
      simp [routeChain]
    · subst h1
      cases allows <;> simp [routeChain]
  have hex : ∀ c : List ProviderLink, (∀ p ∈ c, p.1 = false ∨ p.2 = none) →
      routeChain c = .error .chainExhausted := by
    intro c
    induction c with
    | nil => intro _; rfl
    | cons hd tl ih =>
        intro hc
        obtain ⟨allows, res⟩ := hd
        rw [step allows res tl (hc (allows, res) (List.mem_cons_self _ _))]
        exact ih (fun p hp => hc p (List.mem_cons_of_mem _ hp))
  have hfirst : ∀ c : List ProviderLink, (∀ p ∈ c, p.1 = false ∨ p.2 = none) →
      routeChain (c ++ (true, some r) :: rest) = .ok r := by
    intro c
    induction c with
    | nil => intro _; simp [routeChain]
    | cons hd tl ih =>
        intro hc
        obtain ⟨allows, res⟩ := hd
        rw [List.cons_append,
          step allows res (tl ++ (true, some r) :: rest)
            (hc (allows, res) (List.mem_cons_self _ _))]
        exact ih (fun p hp => hc p (List.mem_cons_of_mem _ hp))
  refine ⟨hex chain hEx, ?_, hfirst pre hPre⟩
  intro arts hok
  rw [hex chain hEx] at hok
  exact Except.noConfusion hok

/-- Claim C5, witness: a chain with an open-circuited provider and a failing
provider is exhausted, and prepending those two before a provider returning
[2, 3] yields exactly [2, 3]. -/
theorem provider_router_c5_witness :
    routeChain [((false : Bool), some [1]), ((true : Bool), none)] = .error .chainExhausted ∧
    routeChain ([((false : Bool), some [1]), ((true : Bool), none)] ++
      ((true : Bool), some [2, 3]) :: []) = .ok [2, 3] := by
  have h := provider_router_c5 [((false : Bool), some [1]), ((true : Bool), none)]
    [((false : Bool), some [1]), ((true : Bool), none)] [] [2, 3]
    (by intro p hp; fin_cases hp <;> simp)
    (by intro p hp; fin_cases hp <;> simp)
  exact ⟨h.1, h.2.2⟩

/- ───────────────────────── Theorems: C8 ───────────────────────── -/

/-- Claim C8: for every purpose, every input and every chain of AI backends
that all fail, the enrichment still succeeds — the router returns the
deterministic fallback's content (which is a total function of the input)
marked as non-AI-generated; no hard failure is possible. -/
theorem ai_fallback_c8 (p : AIPurpose) (input : String) (chain : List (Option EnrichOut))
    (h : ∀ b ∈ chain, b = none) :
    runAIChain p input chain = ⟨purposeFallback p input, false⟩ := by
  induction chain with
  | nil => rfl
  | cons hd tl ih =>
      have hhd : hd = none := h hd (List.mem_cons_self _ _)
      subst hhd
      simpa [runAIChain] using ih (fun b hb => h b (List.mem_cons_of_mem _ hb))

/-- Claim C8, witness: with both backends of the summarize chain failing, the
extractive three-sentence fallback is returned, marked non-AI-generated. -/
theorem ai_fallback_c8_witness :
    runAIChain .summarize "A. B. C. D. E" [none, none] =
      ⟨EnrichOut.text "A. B. C", false⟩ := by
  have h := ai_fallback_c8 .summarize "A. B. C. D. E" [none, none]
    (by intro b hb; fin_cases hb <;> rfl)
  rw [h]
  decide

/- ───────────────────────── Clustering engine (spec §4.3, §7; backend not under src) ───────────────────────── -/

/-- Modelled from the spec: the candidate article as the Clustering Engine
sees it (categories abstracted as numbers, the normalized title hidden behind
the similarity capability). -/
structure ArticleM where
  id : Nat
  category : Nat
  fetchedAt : Nat
deriving DecidableEq

/-- Modelled from the spec: an existing open cluster — id, dominant category
and last-updated timestamp (for the recent-time-window restriction). -/
structure ClusterM where
  id : Nat
  category : Nat
  lastUpdated : Nat
deriving DecidableEq

/-- Lexical similarity threshold: 0.75, inclusive. -/
def simThreshold : ℚ := 3 / 4

/-- Recent time window restricting the clusters compared against. -/
def clusterWindowSecs : Nat := 86400

/-- Modelled from the spec: a cluster is a candidate match for the article
when it lies in the same category and the recent time window and its
similarity score (the polymorphic similarity capability `sim`) reaches the
threshold — an inclusive comparison, so a score exactly at the threshold
matches. -/
def clusterMatches (sim : ClusterM → ℚ) (a : ArticleM) (now : Nat) (c : ClusterM) : Bool :=
  (c.category == a.category) && decide (now - c.lastUpdated ≤ clusterWindowSecs) &&
    decide (simThreshold ≤ sim c)

/-- Modelled from the spec: the deterministic tie-break order among candidate
clusters — higher similarity first, then lower cluster id. -/
def betterThan (sim : ClusterM → ℚ) (c d : ClusterM) : Bool :=
  decide (sim d < sim c) || (decide (sim c = sim d) && decide (c.id < d.id))

/-- Modelled from the spec: select the best matching cluster of the list
under the tie-break order, or none when no cluster matches. -/
def pickBest (sim : ClusterM → ℚ) (ok : ClusterM → Bool) : List ClusterM → Option ClusterM
  | [] => none
  | c :: rest =>
      match pickBest sim ok rest with
      | none => if ok c then some c else none
      | some d => if ok c && betterThan sim c d then some c else some d

/-- Outcome of `assign(article)`: appended to an existing cluster, or a new
cluster created with the article as sole member. -/
inductive AssignResult
  | appended (clusterId : Nat)
  | newCluster
deriving DecidableEq

/-- Modelled from the spec: `assign(article) -> cluster_id` — append to the
best matching cluster when one exists, otherwise create a new cluster. -/
def assignArticle (sim : ClusterM → ℚ) (a : ArticleM) (now : Nat)
    (clusters : List ClusterM) : AssignResult :=
  match pickBest sim (clusterMatches sim a now) clusters with
  | some c => .appended c.id
  | none => .newCluster

theorem betterThan_self (sim : ClusterM → ℚ) (c : ClusterM) :
    betterThan sim c c = false := by
  simp [betterThan]

theorem pickBest_eq_none (sim : ClusterM → ℚ) (ok : ClusterM → Bool) :
    ∀ l : List ClusterM, pickBest sim ok l = none → ∀ d ∈ l, ok d = false := by
  intro l
  induction l with
  | nil => intro _ d hd; exact absurd hd (List.not_mem_nil d)
  | cons hd tl ih =>
      intro h d hdm
      cases hp : pickBest sim ok tl with
      | some e =>
          exfalso
          simp only [pickBest, hp] at h
          by_cases hcond : (ok hd && betterThan sim hd e) = true <;> simp [hcond] at h
      | none =>
          simp only [pickBest, hp] at h
          by_cases hok : ok hd
          · simp [hok] at h
          · rcases List.mem_cons.mp hdm with rfl | hdm2
            · simpa using hok
            · exact ih hp d hdm2

theorem pickBest_mem_ok (sim : ClusterM → ℚ) (ok : ClusterM → Bool) :
    ∀ l : List ClusterM, ∀ d : ClusterM, pickBest sim ok l = some d →
      d ∈ l ∧ ok d = true := by
  intro l
  induction l with
  | nil => intro d h; exact Option.noConfusion h
  | cons hd tl ih =>
      intro d h
      cases hp : pickBest sim ok tl with
      | none =>
          simp only [pickBest, hp] at h
          by_cases hok : ok hd
          · rw [if_pos hok] at h
            obtain rfl : hd = d := Option.some.inj h
            exact ⟨List.mem_cons_self _ _, hok⟩
          · rw [if_neg hok] at h
            exact Option.noConfusion h
      | some e =>
          simp only [pickBest, hp] at h
          by_cases hcond : (ok hd && betterThan sim hd e) = true
          · rw [if_pos hcond] at h
            obtain rfl : hd = d := Option.some.inj h
            exact ⟨List.mem_cons_self _ _, (Bool.and_eq_true _ _ |>.mp hcond).1⟩
          · rw [if_neg hcond] at h
            obtain rfl : e = d := Option.some.inj h
            obtain ⟨hmem, hok⟩ := ih e hp
            exact ⟨List.mem_cons_of_mem _ hmem, hok⟩

theorem pickBest_unique (sim : ClusterM → ℚ) (ok : ClusterM → Bool) :
    ∀ l : List ClusterM, ∀ c : ClusterM, c ∈ l → ok c = true →
      (∀ d ∈ l, ok d = true → d = c) → pickBest sim ok l = some c := by
  intro l
  induction l with
  | nil => intro c hmem _ _; exact absurd hmem (List.not_mem_nil c)
  | cons hd tl ih =>
      intro c hmem hok huniq
      cases hp : pickBest sim ok tl with
      | none =>
          rcases List.mem_cons.mp hmem with rfl | hmem2
          · simp [pickBest, hp, hok]
          · exact absurd hok (by simp [pickBest_eq_none sim ok tl hp c hmem2])
      | some e =>
          obtain ⟨hemem, heok⟩ := pickBest_mem_ok sim ok tl e hp
          obtain rfl : e = c := huniq e (List.mem_cons_of_mem _ hemem) heok
          by_cases hdc : hd = e
          · subst hdc
            simp [pickBest, hp]
          · have hok2 : ok hd = false := by
              by_cases h2 : ok hd = true
              · exact absurd (huniq hd (List.mem_cons_self _ _) h2) hdc
              · simpa using h2
            simp [pickBest, hp, hok2]

/- ───────────────────────── Trending scorer (spec §4.4; backend not under src) ───────────────────────── -/

/-- Modelled from the spec: the scorer's configuration — the three weights,
the recency horizon, the velocity trailing window, and the logarithm
evaluation (only the shape `log(1 + n)` is fixed by the spec, so the function
itself is configuration too). -/
structure ScoreConfig where
  w1 : ℚ
  w2 : ℚ
  w3 : ℚ
  horizonSecs : Nat
  windowSecs : Nat
  logFn : Nat → ℚ

/-- Modelled from the spec: a cluster member as the scorer sees it. -/
structure MemberM where
  title : String
  source : Nat
  publishedAt : Nat
deriving DecidableEq

/-- Modelled from the spec: a cluster with its member articles and the fields
the scorer does not read (id, canonical title, AI summary). -/
structure TrendCluster where
  id : Nat
  canonicalTitle : String
  summary : Option String
  members : List MemberM
deriving DecidableEq

/-- The member publish timestamps of a cluster. -/
def memberTimestamps (c : TrendCluster) : List Nat :=
  c.members.map MemberM.publishedAt

/-- The number of distinct source names among a cluster's members. -/
def distinctSourceCount (c : TrendCluster) : Nat :=
  (c.members.map MemberM.source).dedup.length

/-- Modelled from the spec: recency boost decaying linearly from its maximum
at the newest publish time to zero past the horizon. -/
def recencyBoost (horizonSecs : Nat) (tss : List Nat) (now : Nat) : ℚ :=
  let newest := tss.foldr max 0
  if horizonSecs ≤ now - newest then 0
  else 1 - ((now - newest : Nat) : ℚ) / (horizonSecs : ℚ)

/-- Modelled from the spec: velocity — the new-article count within the
trailing window, normalized by the window length. -/
def velocity (windowSecs : Nat) (tss : List Nat) (now : Nat) : ℚ :=
  ((tss.filter (fun ts => now - ts ≤ windowSecs)).length : ℚ) / (windowSecs : ℚ)

/-- Modelled from the spec: the score formula
`w1 * log(1 + distinct_source_count) + w2 * recency_boost + w3 * velocity`
over the recorded inputs (distinct source count, member timestamps, now). -/
def scoreOf (cfg : ScoreConfig) (srcCount : Nat) (tss : List Nat) (now : Nat) : ℚ :=
  cfg.w1 * cfg.logFn (1 + srcCount) + cfg.w2 * recencyBoost cfg.horizonSecs tss now +
    cfg.w3 * velocity cfg.windowSecs tss now

/-- Modelled from the spec: `score(cluster)` reads only the cluster's
distinct source count and member timestamps, plus the current time. -/
def trendingScore (cfg : ScoreConfig) (c : TrendCluster) (now : Nat) : ℚ :=
  scoreOf cfg (distinctSourceCount c) (memberTimestamps c) now

/- ───────────────────────── Theorems: C6 ───────────────────────── -/

/-- Claim C6: a candidate article whose similarity to an existing cluster in
the same category and time window is exactly the 0.75 threshold is treated as
a match — the comparison is inclusive — and (when no other cluster matches)
`assign` appends the article to that cluster instead of creating a new one. -/
theorem clustering_threshold_c6 (sim : ClusterM → ℚ) (a : ArticleM) (now : Nat)
    (clusters : List ClusterM) (c : ClusterM)
    (hmem : c ∈ clusters)
    (hcat : c.category = a.category)
    (hwin : now - c.lastUpdated ≤ clusterWindowSecs)
    (hsim : sim c = simThreshold)
    (huniq : ∀ d ∈ clusters, clusterMatches sim a now d = true → d = c) :
    clusterMatches sim a now c = true ∧
    assignArticle sim a now clusters = .appended c.id := by
  have hok : clusterMatches sim a now c = true := by
    have h1 : (c.category == a.category) = true := by simp [hcat]
    have h2 : decide (now - c.lastUpdated ≤ clusterWindowSecs) = true := by simp [hwin]
    have h3 : decide (simThreshold ≤ sim c) = true := by
      rw [hsim]
      simp
    unfold clusterMatches
    rw [h1, h2, h3]
    rfl
  refine ⟨hok, ?_⟩
  unfold assignArticle
  rw [pickBest_unique sim (clusterMatches sim a now) clusters c hmem hok huniq]

/-- Similarity capability used by the C6 witness: score exactly 0.75 against
cluster 5, zero elsewhere. -/
def wSim : ClusterM → ℚ := fun c => if c.id = 5 then simThreshold else 0

/-- Clusters used by the C6 witness. -/
def wClusters : List ClusterM := [⟨5, 1, 100⟩, ⟨7, 2, 100⟩]

/-- Claim C6, witness: an article in category 1 at time 100 whose similarity
to cluster 5 is exactly the threshold is appended to cluster 5. -/
theorem clustering_threshold_c6_witness :
    clusterMatches wSim ⟨1, 1, 100⟩ 100 ⟨5, 1, 100⟩ = true ∧
    assignArticle wSim ⟨1, 1, 100⟩ 100 wClusters = .appended 5 := by
  refine clustering_threshold_c6 wSim ⟨1, 1, 100⟩ 100 wClusters ⟨5, 1, 100⟩
    (by decide) rfl (by decide) (by simp [wSim]) ?_
  intro d hd hmatch
  rcases List.mem_cons.mp hd with rfl | hd2
  · rfl
  · rcases List.mem_cons.mp hd2 with rfl | hd3
    · exfalso
      simp [clusterMatches] at hmatch
    · exact absurd hd3 (List.not_mem_nil d)

/- ───────────────────────── Theorems: C7 ───────────────────────── -/

/-- Claim C7: the trending score is a deterministic pure function of the
distinct source count, the member timestamps and the current time — two
clusters agreeing on those inputs receive the same score at the same time,
whatever their other fields (id, titles, AI summary) hold, and re-evaluation
with unchanged membership at the same time yields the same value. -/
theorem trending_score_pure_c7 (cfg : ScoreConfig) (c1 c2 : TrendCluster) (now : Nat)
    (hsrc : distinctSourceCount c1 = distinctSourceCount c2)
    (hts : memberTimestamps c1 = memberTimestamps c2) :
    trendingScore cfg c1 now = trendingScore cfg c2 now := by
  unfold trendingScore
  rw [hsrc, hts]

/-- Claim C7, witness: two clusters differing in id, canonical title, AI
summary and member titles but with identical source/timestamp data score
identically. -/
theorem trending_score_pure_c7_witness :
    trendingScore ⟨1, 1, 1, 86400, 1800, fun n => (n : ℚ)⟩
        ⟨1, "budget bill", none, [⟨"Senate Passes Budget Bill", 1, 100⟩]⟩ 500 =
      trendingScore ⟨1, 1, 1, 86400, 1800, fun n => (n : ℚ)⟩
        ⟨2, "senate bill", some "summary", [⟨"Senate passes the budget bill", 1, 100⟩]⟩ 500 := by
  exact trending_score_pure_c7 ⟨1, 1, 1, 86400, 1800, fun n => (n : ℚ)⟩
    ⟨1, "budget bill", none, [⟨"Senate Passes Budget Bill", 1, 100⟩]⟩
    ⟨2, "senate bill", some "summary", [⟨"Senate passes the budget bill", 1, 100⟩]⟩
    500 rfl rfl
